import Mathlib

/-!
Verification of the mybrain retrieval core against its specification.

The Python sources are shallowly embedded: floating-point scores are
modelled as rationals, database result sets as explicit lists passed to the
scoring/decision logic, and fallible external calls as Option-valued
inputs.  Each definition mirrors one function of the repository; theorems
settle the specification claims about them.
-/

namespace MyBrain

/-! Python string primitives (ASCII model).

All operations are implemented over the character list of the string so
that they reduce inside the kernel.  strContains hay pat models the Python
expression pat in hay; pyLower models str.lower and pyWords models
re.findall of word-character runs, both restricted to ASCII (the German
umlauts appearing in some literals are carried through unchanged, which is
irrelevant to every concrete input used below). -/

def strContains (hay pat : String) : Bool :=
  (List.range (hay.data.length + 1)).any
    (fun i => ((hay.data.drop i).take pat.data.length) == pat.data)

def pyLowerChar (c : Char) : Char :=
  if 'A' ≤ c ∧ c ≤ 'Z' then Char.ofNat (c.toNat + 32) else c

def pyLower (s : String) : String := String.mk (s.data.map pyLowerChar)

def pyLen (s : String) : ℕ := s.data.length

def pyTake (s : String) (n : ℕ) : String := String.mk (s.data.take n)

def pyDrop (s : String) (n : ℕ) : String := String.mk (s.data.drop n)

def pyCat (a b : String) : String := String.mk (a.data ++ b.data)

def pyStrip (s : String) : String :=
  String.mk ((s.data.dropWhile Char.isWhitespace).reverse.dropWhile
    Char.isWhitespace).reverse

def pyStartsWith (s pre : String) : Bool := pre.data.isPrefixOf s.data

def pyWordChar (c : Char) : Bool :=
  c.isAlphanum || c == '_'

def pyWordsAux : List Char → List Char → List String
  | [], cur => if cur.isEmpty then [] else [String.mk cur.reverse]
  | c :: rest, cur =>
    if pyWordChar c then pyWordsAux rest (c :: cur)
    else if cur.isEmpty then pyWordsAux rest []
    else String.mk cur.reverse :: pyWordsAux rest []

def pyWords (s : String) : List String := pyWordsAux s.data []

/-- Descending-by-key order used to model Python stable sorts with
reverse=True. -/
def descBy {α : Type} (f : α → ℚ) (x y : α) : Prop := f y ≤ f x

instance {α : Type} (f : α → ℚ) : DecidableRel (descBy f) :=
  fun x y => inferInstanceAs (Decidable (f y ≤ f x))

instance {α : Type} (f : α → ℚ) : IsTotal α (descBy f) :=
  ⟨fun a b => le_total (f b) (f a)⟩

instance {α : Type} (f : α → ℚ) : IsTrans α (descBy f) :=
  ⟨fun _ _ _ h1 h2 => le_trans h2 h1⟩

/-- Descending-by-key order on a natural-number column (SQL ORDER BY ...
DESC). -/
def descByNat {α : Type} (f : α → ℕ) (x y : α) : Prop := f y ≤ f x

instance {α : Type} (f : α → ℕ) : DecidableRel (descByNat f) :=
  fun x y => inferInstanceAs (Decidable (f y ≤ f x))

instance {α : Type} (f : α → ℕ) : IsTotal α (descByNat f) :=
  ⟨fun a b => le_total (f b) (f a)⟩

instance {α : Type} (f : α → ℕ) : IsTrans α (descByNat f) :=
  ⟨fun _ _ _ h1 h2 => le_trans h2 h1⟩

/-- Ascending-by-key order (SQL ORDER BY on an integer column). -/
def ascByNat {α : Type} (f : α → ℕ) (x y : α) : Prop := f x ≤ f y

instance {α : Type} (f : α → ℕ) : DecidableRel (ascByNat f) :=
  fun x y => inferInstanceAs (Decidable (f x ≤ f y))

instance {α : Type} (f : α → ℕ) : IsTotal α (ascByNat f) :=
  ⟨fun a b => le_total (f a) (f b)⟩

instance {α : Type} (f : α → ℕ) : IsTrans α (ascByNat f) :=
  ⟨fun _ _ _ h1 h2 => le_trans h1 h2⟩

/-! Stage-1 fusion scores.

The repository ships two versions of the hybrid_search SQL function.
fixSearchRank embeds the scoring expression installed by
scripts.fix_search: 0.5 * vec_sim + 0.25 * LEAST(txt_rank / 10, 1) with
COALESCE(..., 0) on both signals and no lower clamp.
testFixAllRank embeds the expression installed by
scripts.test_and_fix_all: GREATEST(0.5 * COALESCE(vec, 0)
+ 0.25 * COALESCE(txt_rank / 10, 0), 0), with no cap on the lexical term.
A missing row on either side of the FULL OUTER JOIN is modelled by none. -/

def fixSearchRank (v t : Option ℚ) : ℚ :=
  (1/2) * v.getD 0 + (1/4) * min (t.getD 0 / 10) 1

def testFixAllRank (v t : Option ℚ) : ℚ :=
  max ((1/2) * v.getD 0 + (1/4) * ((t.map (fun x => x / 10)).getD 0)) 0

/-- Modelled from the spec's words, for comparison with the two code
versions: 0.5 x dense + 0.25 x min(lexical_rank / 10, 1), clamped to be
at least 0, with a missing signal contributing 0. -/
def specFusionScore (v t : Option ℚ) : ℚ :=
  max ((1/2) * v.getD 0 + (1/4) * min (t.getD 0 / 10) 1) 0

/-- Claim C1 (counterexample): neither deployed fusion formula matches the
claimed one.  The fix_search version lacks the clamp at 0: for a candidate
found only by dense search with dense similarity -1/2 it yields -1/4 where
the claim demands 0.  The test_and_fix_all version lacks the min cap: for a
candidate found only by lexical search with lexical rank 40 it yields 1
where the claim demands 1/4. -/
theorem c1_fusion_counterexample :
    fixSearchRank (some (-(1/2))) none ≠ specFusionScore (some (-(1/2))) none
    ∧ fixSearchRank (some (-(1/2))) none = -(1/4)
    ∧ specFusionScore (some (-(1/2))) none = 0
    ∧ testFixAllRank none (some 40) ≠ specFusionScore none (some 40)
    ∧ testFixAllRank none (some 40) = 1
    ∧ specFusionScore none (some 40) = 1/4 := by
  refine ⟨?_, ?_, ?_, ?_, ?_, ?_⟩ <;>
    norm_num [fixSearchRank, specFusionScore, testFixAllRank, Option.getD, Option.map]

/-- Claim C1 (amended): the claimed fusion formula
0.5 x dense + 0.25 x min(lexical_rank / 10, 1), clamped to at least 0 with
missing signals contributing 0, agrees with both deployed implementations
exactly on the benign range: dense similarity nonnegative and lexical rank
between 0 and 10.  Outside it, fix_search omits the clamp at 0 and
test_and_fix_all omits the min cap. -/
theorem c1_fusion_amended (v t : Option ℚ)
    (hv : 0 ≤ v.getD 0) (ht0 : 0 ≤ t.getD 0) (ht1 : t.getD 0 ≤ 10) :
    fixSearchRank v t = specFusionScore v t
    ∧ testFixAllRank v t = specFusionScore v t := by
  have hmin : min (t.getD 0 / 10) 1 = t.getD 0 / 10 := by
    apply min_eq_left
    linarith
  have hmap : ((t.map (fun x => x / 10)).getD 0) = t.getD 0 / 10 := by
    cases t with
    | none => simp
    | some x => simp
  have hpos : 0 ≤ (1/2 : ℚ) * v.getD 0 + (1/4) * (t.getD 0 / 10) := by positivity
  constructor
  · unfold fixSearchRank specFusionScore
    rw [hmin]
    exact (max_eq_left hpos).symm
  · unfold testFixAllRank specFusionScore
    rw [hmin, hmap]

/-- Concrete instantiation of the amended claim C1 at dense similarity 1/2
and lexical rank 5. -/
theorem c1_fusion_witness :
    fixSearchRank (some (1/2)) (some 5) = specFusionScore (some (1/2)) (some 5)
    ∧ testFixAllRank (some (1/2)) (some 5) = specFusionScore (some (1/2)) (some 5) :=
  c1_fusion_amended (some (1/2)) (some 5) (by norm_num) (by norm_num) (by norm_num)

/-! Chunker (backend.core.chunking.SmartChunker with its default
parameters: target 750, max 1000, overlap 100). -/

structure Chunk where
  content : String
  chunk_type : String
  chunk_index : ℕ
  start_time : Option ℚ := none
  end_time : Option ℚ := none
  speaker : Option String := none
  tokens : ℕ := 0
  importance_score : ℚ := 1/2
deriving DecidableEq

def targetChunkTokens : ℕ := 750
def maxChunkTokens : ℕ := 1000
def overlapTokens : ℕ := 100

def estimateTokens (text : String) : ℕ := pyLen text / 4

def generateSummaryPlaceholder (text : String) : String :=
  pyCat (pyCat "[Summary to be generated] " (pyTake text 1000)) "..."

/-- Model of re.split on whitespace runs preceded by sentence punctuation;
the split point is the first whitespace character whose predecessor is one
of . ! ?, and residual whitespace is removed by the subsequent strip. -/
def splitSentencesAux : List Char → List Char → List String
  | [], cur => [String.mk cur.reverse]
  | c :: rest, cur =>
    if c.isWhitespace && (match cur with
        | p :: _ => p == '.' || p == '!' || p == '?'
        | [] => false) then
      String.mk cur.reverse :: splitSentencesAux rest []
    else
      splitSentencesAux rest (c :: cur)

def splitIntoSentences (text : String) : List String :=
  ((splitSentencesAux text.data []).map pyStrip).filter (fun s => s ≠ "")

def joinSp (l : List String) : String :=
  String.mk (List.intercalate [' '] (l.map String.data))

def overlapAux : List String → ℕ → List String → List String
  | [], _, acc => acc
  | s :: rest, tot, acc =>
    let st := estimateTokens s
    if tot + st ≤ overlapTokens then overlapAux rest (tot + st) (s :: acc)
    else acc

def getOverlapSentences (sentences : List String) : List String :=
  overlapAux sentences.reverse 0 []

structure DetailState where
  cur : List String
  toks : ℕ
  idx : ℕ
  acc : List Chunk
deriving DecidableEq

def mkDetailChunk (content : String) (idx toks : ℕ) (speaker : Option String) : Chunk :=
  { content := content, chunk_type := "detail", chunk_index := idx,
    speaker := speaker, tokens := toks }

def detailStep (st : DetailState) (sentence : String) : DetailState :=
  let stoks := estimateTokens sentence
  if targetChunkTokens < st.toks + stoks then
    let acc' := if st.cur ≠ [] then
        st.acc ++ [mkDetailChunk (joinSp st.cur) st.idx st.toks none]
      else st.acc
    let idx' := if st.cur ≠ [] then st.idx + 1 else st.idx
    let cur' := getOverlapSentences st.cur ++ [sentence]
    ⟨cur', (cur'.map estimateTokens).sum, idx', acc'⟩
  else
    ⟨st.cur ++ [sentence], st.toks + stoks, st.idx, st.acc⟩

structure SpeakerState where
  curSpeaker : Option String
  texts : List String
  toks : ℕ
  idx : ℕ
  acc : List Chunk
deriving DecidableEq

def speakerStep (st : SpeakerState) (p : String × String) : SpeakerState :=
  let ttoks := estimateTokens p.2
  if some p.1 ≠ st.curSpeaker ∨ maxChunkTokens < st.toks + ttoks then
    let acc' := if st.texts ≠ [] then
        st.acc ++ [mkDetailChunk (joinSp st.texts) st.idx st.toks st.curSpeaker]
      else st.acc
    let idx' := if st.texts ≠ [] then st.idx + 1 else st.idx
    ⟨some p.1, [p.2], ttoks, idx', acc'⟩
  else
    ⟨st.curSpeaker, st.texts ++ [p.2], st.toks + ttoks, st.idx, st.acc⟩

def chunkBySpeakers (speakers : List (String × String)) : List Chunk :=
  let st := speakers.foldl speakerStep ⟨none, [], 0, 1, []⟩
  st.acc ++ (if st.texts ≠ [] then
    [mkDetailChunk (joinSp st.texts) st.idx st.toks st.curSpeaker] else [])

def createDetailBySentences (transcript : String) : List Chunk :=
  let sentences := splitIntoSentences transcript
  let st := sentences.foldl detailStep ⟨[], 0, 1, []⟩
  st.acc ++ (if st.cur ≠ [] then [mkDetailChunk (joinSp st.cur) st.idx st.toks none] else [])

/-- Model of _create_detail_chunks: the speakers list takes priority (Python
truthiness: an empty list falls through to sentence-based chunking); the
local chunk counter restarts at 1 in both paths. -/
def createDetailChunks (transcript : String)
    (speakers : Option (List (String × String))) : List Chunk :=
  match speakers with
  | some sp =>
    if sp ≠ [] then chunkBySpeakers sp else createDetailBySentences transcript
  | none => createDetailBySentences transcript

def mkTopicChunk (content : String) (idx : ℕ) (st et : Option ℚ) : Chunk :=
  { content := content, chunk_type := "topic", chunk_index := idx,
    start_time := st, end_time := et, tokens := estimateTokens content }

structure TopicState where
  segStart : ℚ
  texts : List String
  idx : ℕ
  acc : List Chunk
deriving DecidableEq

def topicSegmentDuration : ℚ := 600

def topicStep (st : TopicState) (p : ℚ × String) : TopicState :=
  if st.segStart + topicSegmentDuration ≤ p.1 then
    let acc' := if st.texts ≠ [] then
        st.acc ++ [mkTopicChunk (joinSp st.texts) st.idx (some st.segStart) (some p.1)]
      else st.acc
    let idx' := if st.texts ≠ [] then st.idx + 1 else st.idx
    ⟨p.1, [p.2], idx', acc'⟩
  else
    ⟨st.segStart, st.texts ++ [p.2], st.idx, st.acc⟩

def createTopicChunksWithTimestamps (timestamps : List (ℚ × String)) : List Chunk :=
  let st := timestamps.foldl topicStep ⟨0, [], 1, []⟩
  st.acc ++ (if st.texts ≠ [] then
    [mkTopicChunk (joinSp st.texts) st.idx (some st.segStart)
      (timestamps.getLast?.map Prod.fst)] else [])

def createTopicChunksBySize (text : String) : List Chunk :=
  let cs := pyLen text / 6
  (List.range 6).map fun i =>
    let content := if i < 5 then pyTake (pyDrop text (i * cs)) cs else pyDrop text (5 * cs)
    mkTopicChunk content (i + 1) none none

def importanceKeywords : List String :=
  ["wichtig", "important", "problem", "lÃ¶sung", "solution", "frage", "question"]

/-- Model of _calculate_importance_scores: summary 1.0, topic 0.8, detail the
average of a positional score 1 - abs(i - n/2) / (n/2) and a keyword-based
content score (0.8 when a keyword occurs, else 0.5). -/
def importanceFor (n i : ℕ) (c : Chunk) : Chunk :=
  if c.chunk_type = "summary" then { c with importance_score := 1 }
  else if c.chunk_type = "topic" then { c with importance_score := 4/5 }
  else
    let nq : ℚ := n
    let iq : ℚ := i
    let positionScore : ℚ := 1 - |iq - nq/2| / (nq/2)
    let contentScore : ℚ :=
      if importanceKeywords.any (fun w => strContains (pyLower c.content) w) then 4/5 else 1/2
    { c with importance_score := (positionScore + contentScore) / 2 }

def scoreAux (n : ℕ) : ℕ → List Chunk → List Chunk
  | _, [] => []
  | i, c :: rest => importanceFor n i c :: scoreAux n (i + 1) rest

def calculateImportanceScores (chunks : List Chunk) : List Chunk :=
  scoreAux chunks.length 0 chunks

/-- chunk_transcript: summary chunk at index 0, then topic chunks, then
detail chunks, then importance scoring (Python truthiness: empty optional
lists fall through to the no-timestamp / no-speaker paths). -/
def chunkTranscript (transcript : String)
    (timestamps : Option (List (ℚ × String)))
    (speakers : Option (List (String × String))) : List Chunk :=
  let summary := generateSummaryPlaceholder transcript
  let base : List Chunk :=
    [{ content := summary, chunk_type := "summary", chunk_index := 0,
       tokens := estimateTokens summary }]
  let topics := match timestamps with
    | some ts => if ts ≠ [] then createTopicChunksWithTimestamps ts
                 else createTopicChunksBySize transcript
    | none => createTopicChunksBySize transcript
  let details := createDetailChunks transcript speakers
  calculateImportanceScores (base ++ topics ++ details)

/-! Chunk-index structure (claims C4 and C5). -/

def tierIdx (c : Chunk) : String × ℕ := (c.chunk_type, c.chunk_index)

lemma importanceFor_tierIdx (n i : ℕ) (c : Chunk) :
    tierIdx (importanceFor n i c) = tierIdx c := by
  unfold importanceFor
  split
  · rfl
  · split <;> rfl

lemma scoreAux_map_tierIdx (n : ℕ) (i : ℕ) (l : List Chunk) :
    (scoreAux n i l).map tierIdx = l.map tierIdx := by
  induction l generalizing i with
  | nil => rfl
  | cons c rest ih => simp [scoreAux, importanceFor_tierIdx, ih]

lemma topicBySize_map_tierIdx (t : String) :
    (createTopicChunksBySize t).map tierIdx
      = (List.range' 1 6).map (fun j => ("topic", j)) := by
  simp only [createTopicChunksBySize, List.map_map, List.range'_eq_map_range]
  congr 1
  funext i
  simp [tierIdx, mkTopicChunk, Nat.add_comm]

lemma topicStep_inv (st : TopicState) (p : ℚ × String)
    (h : ∃ k, st.idx = k + 1
      ∧ st.acc.map tierIdx = (List.range' 1 k).map (fun j => ("topic", j))) :
    ∃ k, (topicStep st p).idx = k + 1
      ∧ (topicStep st p).acc.map tierIdx = (List.range' 1 k).map (fun j => ("topic", j)) := by
  obtain ⟨k, hidx, hacc⟩ := h
  by_cases hcond : st.segStart + topicSegmentDuration ≤ p.1
  · by_cases htx : st.texts = []
    · refine ⟨k, ?_, ?_⟩ <;> simp [topicStep, hcond, htx, hidx, hacc]
    · refine ⟨k + 1, ?_, ?_⟩ <;>
        simp [topicStep, hcond, htx, hidx, hacc, mkTopicChunk, tierIdx,
          List.range'_concat, Nat.add_comm]
  · refine ⟨k, ?_, ?_⟩ <;> simp [topicStep, hcond, hidx, hacc]

lemma topic_foldl_inv (ts : List (ℚ × String)) (st : TopicState)
    (h : ∃ k, st.idx = k + 1
      ∧ st.acc.map tierIdx = (List.range' 1 k).map (fun j => ("topic", j))) :
    ∃ k, (ts.foldl topicStep st).idx = k + 1
      ∧ (ts.foldl topicStep st).acc.map tierIdx
          = (List.range' 1 k).map (fun j => ("topic", j)) := by
  induction ts generalizing st with
  | nil => exact h
  | cons p rest ih => exact ih (topicStep st p) (topicStep_inv st p h)

lemma topicWithTs_map_tierIdx (ts : List (ℚ × String)) :
    ∃ m, (createTopicChunksWithTimestamps ts).map tierIdx
      = (List.range' 1 m).map (fun j => ("topic", j)) := by
  obtain ⟨k, hidx, hacc⟩ := topic_foldl_inv ts ⟨0, [], 1, []⟩ ⟨0, rfl, rfl⟩
  unfold createTopicChunksWithTimestamps
  by_cases htx : (ts.foldl topicStep ⟨0, [], 1, []⟩).texts = []
  · exact ⟨k, by simp [htx, hacc]⟩
  · refine ⟨k + 1, ?_⟩
    simp [htx, hacc, mkTopicChunk, tierIdx, List.range'_concat, hidx, Nat.add_comm]

lemma detailStep_inv (st : DetailState) (s : String)
    (h : ∃ k, st.idx = k + 1
      ∧ st.acc.map tierIdx = (List.range' 1 k).map (fun j => ("detail", j))) :
    ∃ k, (detailStep st s).idx = k + 1
      ∧ (detailStep st s).acc.map tierIdx = (List.range' 1 k).map (fun j => ("detail", j)) := by
  obtain ⟨k, hidx, hacc⟩ := h
  by_cases hcond : targetChunkTokens < st.toks + estimateTokens s
  · by_cases hcur : st.cur = []
    · refine ⟨k, ?_, ?_⟩ <;> simp [detailStep, hcond, hcur, hidx, hacc]
    · refine ⟨k + 1, ?_, ?_⟩ <;>
        simp [detailStep, hcond, hcur, hidx, hacc, mkDetailChunk, tierIdx,
          List.range'_concat, Nat.add_comm]
  · refine ⟨k, ?_, ?_⟩ <;> simp [detailStep, hcond, hidx, hacc]

lemma detail_foldl_inv (ss : List String) (st : DetailState)
    (h : ∃ k, st.idx = k + 1
      ∧ st.acc.map tierIdx = (List.range' 1 k).map (fun j => ("detail", j))) :
    ∃ k, (ss.foldl detailStep st).idx = k + 1
      ∧ (ss.foldl detailStep st).acc.map tierIdx
          = (List.range' 1 k).map (fun j => ("detail", j)) := by
  induction ss generalizing st with
  | nil => exact h
  | cons s rest ih => exact ih (detailStep st s) (detailStep_inv st s h)

lemma detailBySentences_map_tierIdx (t : String) :
    ∃ m, (createDetailBySentences t).map tierIdx
      = (List.range' 1 m).map (fun j => ("detail", j)) := by
  obtain ⟨k, hidx, hacc⟩ :=
    detail_foldl_inv (splitIntoSentences t) ⟨[], 0, 1, []⟩ ⟨0, rfl, rfl⟩
  unfold createDetailBySentences
  by_cases hcur : ((splitIntoSentences t).foldl detailStep ⟨[], 0, 1, []⟩).cur = []
  · exact ⟨k, by simp [hcur, hacc]⟩
  · refine ⟨k + 1, ?_⟩
    simp [hcur, hacc, mkDetailChunk, tierIdx, List.range'_concat, hidx, Nat.add_comm]

lemma speakerStep_inv (st : SpeakerState) (p : String × String)
    (h : ∃ k, st.idx = k + 1
      ∧ st.acc.map tierIdx = (List.range' 1 k).map (fun j => ("detail", j))) :
    ∃ k, (speakerStep st p).idx = k + 1
      ∧ (speakerStep st p).acc.map tierIdx = (List.range' 1 k).map (fun j => ("detail", j)) := by
  obtain ⟨k, hidx, hacc⟩ := h
  by_cases hcond : some p.1 ≠ st.curSpeaker ∨ maxChunkTokens < st.toks + estimateTokens p.2
  · by_cases htx : st.texts = []
    · refine ⟨k, ?_, ?_⟩ <;> simp [speakerStep, hcond, htx, hidx, hacc]
    · refine ⟨k + 1, ?_, ?_⟩ <;>
        simp [speakerStep, hcond, htx, hidx, hacc, mkDetailChunk, tierIdx,
          List.range'_concat, Nat.add_comm]
  · refine ⟨k, ?_, ?_⟩ <;> simp [speakerStep, hcond, hidx, hacc]

lemma speaker_foldl_inv (sp : List (String × String)) (st : SpeakerState)
    (h : ∃ k, st.idx = k + 1
      ∧ st.acc.map tierIdx = (List.range' 1 k).map (fun j => ("detail", j))) :
    ∃ k, (sp.foldl speakerStep st).idx = k + 1
      ∧ (sp.foldl speakerStep st).acc.map tierIdx
          = (List.range' 1 k).map (fun j => ("detail", j)) := by
  induction sp generalizing st with
  | nil => exact h
  | cons p rest ih => exact ih (speakerStep st p) (speakerStep_inv st p h)

lemma chunkBySpeakers_map_tierIdx (sp : List (String × String)) :
    ∃ m, (chunkBySpeakers sp).map tierIdx
      = (List.range' 1 m).map (fun j => ("detail", j)) := by
  obtain ⟨k, hidx, hacc⟩ := speaker_foldl_inv sp ⟨none, [], 0, 1, []⟩ ⟨0, rfl, rfl⟩
  unfold chunkBySpeakers
  by_cases htx : (sp.foldl speakerStep ⟨none, [], 0, 1, []⟩).texts = []
  · exact ⟨k, by simp [htx, hacc]⟩
  · refine ⟨k + 1, ?_⟩
    simp [htx, hacc, mkDetailChunk, tierIdx, List.range'_concat, hidx, Nat.add_comm]

lemma topics_map_tierIdx (t : String) (ts : Option (List (ℚ × String))) :
    ∃ k, (match ts with
        | some l => if l ≠ [] then createTopicChunksWithTimestamps l
                    else createTopicChunksBySize t
        | none => createTopicChunksBySize t).map tierIdx
      = (List.range' 1 k).map (fun j => ("topic", j)) := by
  match ts with
  | none => exact ⟨6, topicBySize_map_tierIdx t⟩
  | some l =>
    by_cases hl : l ≠ []
    · simpa [hl] using topicWithTs_map_tierIdx l
    · exact ⟨6, by simp [hl, topicBySize_map_tierIdx t]⟩

lemma details_map_tierIdx (t : String) (sp : Option (List (String × String))) :
    ∃ m, (createDetailChunks t sp).map tierIdx
      = (List.range' 1 m).map (fun j => ("detail", j)) := by
  match sp with
  | none => exact detailBySentences_map_tierIdx t
  | some l =>
    by_cases hl : l ≠ []
    · simpa [createDetailChunks, hl] using chunkBySpeakers_map_tierIdx l
    · simpa [createDetailChunks, hl] using detailBySentences_map_tierIdx t

/-- Claim C4 (counterexample): on the transcript "One. Two." with no
timestamps and no speakers, chunk_transcript produces chunk indices
0, 1, 2, 3, 4, 5, 6, 1 — the topic chunk numbered 1 and the detail chunk
numbered 1 collide, so the indices are not pairwise distinct. -/
theorem c4_chunk_index_counterexample :
    (chunkTranscript "One. Two." none none).map (fun c => c.chunk_index)
        = [0, 1, 2, 3, 4, 5, 6, 1]
    ∧ ¬ List.Pairwise (fun a b => a ≠ b)
        ((chunkTranscript "One. Two." none none).map (fun c => c.chunk_index)) := by
  exact ⟨by decide, by decide⟩

/-- Claim C4 (amended): within each tier the ordinal indices do follow
insertion order — the summary chunk has index 0 and the topic and detail
tiers are numbered consecutively from 1 in emission order — but the topic
and detail tiers each restart at 1, so indices are not unique across the
whole document. -/
theorem c4_chunk_index_amended (t : String) (ts : Option (List (ℚ × String)))
    (sp : Option (List (String × String))) :
    ∃ k m, (chunkTranscript t ts sp).map tierIdx
      = ("summary", 0) :: ((List.range' 1 k).map (fun j => ("topic", j))
          ++ (List.range' 1 m).map (fun j => ("detail", j))) := by
  obtain ⟨k, hk⟩ := topics_map_tierIdx t ts
  obtain ⟨m, hm⟩ := details_map_tierIdx t sp
  refine ⟨k, m, ?_⟩
  unfold chunkTranscript calculateImportanceScores
  rw [scoreAux_map_tierIdx]
  simp only [List.map_append, List.map_cons, List.map_nil, hk, hm]
  rfl

/-- The failing input for claim C5: nine detail-tier chunks with neutral
content (no importance keyword). -/
def c5FailingChunks : List Chunk :=
  [{ content := "segment", chunk_type := "detail", chunk_index := 1 },
   { content := "segment", chunk_type := "detail", chunk_index := 2 },
   { content := "segment", chunk_type := "detail", chunk_index := 3 },
   { content := "segment", chunk_type := "detail", chunk_index := 4 },
   { content := "segment", chunk_type := "detail", chunk_index := 5 },
   { content := "segment", chunk_type := "detail", chunk_index := 6 },
   { content := "segment", chunk_type := "detail", chunk_index := 7 },
   { content := "segment", chunk_type := "detail", chunk_index := 8 },
   { content := "segment", chunk_type := "detail", chunk_index := 9 }]

/-- Claim C5 (code evaluated at the failing input): on nine keyword-free
detail chunks the importance scores are
1/4, 13/36, 17/36, 7/12, 25/36, 25/36, 7/12, 17/36, 13/36 — the positional
component peaks at the middle of the document (25/36) and is smallest at
the first and last chunks, the opposite of the bell curve favoring the
first and last thirds that the claim, the spec and the code's own comment
describe. -/
theorem c5_importance_position_bug :
    (calculateImportanceScores c5FailingChunks).map (fun c => c.importance_score)
      = [1/4, 13/36, 17/36, 7/12, 25/36, 25/36, 7/12, 17/36, 13/36]
    ∧ ((calculateImportanceScores c5FailingChunks).map
        (fun c => c.importance_score)).getD 0 0
      < ((calculateImportanceScores c5FailingChunks).map
        (fun c => c.importance_score)).getD 4 0
    ∧ ((calculateImportanceScores c5FailingChunks).map
        (fun c => c.importance_score)).getD 8 0
      < ((calculateImportanceScores c5FailingChunks).map
        (fun c => c.importance_score)).getD 4 0 := by
  have hkw : (importanceKeywords.any (fun w => strContains (pyLower "segment") w)) = false := by
    decide
  have hd1 : ¬ (("detail" : String) = "summary") := by decide
  have hd2 : ¬ (("detail" : String) = "topic") := by decide
  have a1 : |(1:ℚ)/2| = 1/2 := by rw [abs_of_nonneg] <;> norm_num
  have a3 : |(3:ℚ)/2| = 3/2 := by rw [abs_of_nonneg] <;> norm_num
  have a5 : |(5:ℚ)/2| = 5/2 := by rw [abs_of_nonneg] <;> norm_num
  have a7 : |(7:ℚ)/2| = 7/2 := by rw [abs_of_nonneg] <;> norm_num
  have a9 : |(9:ℚ)/2| = 9/2 := by rw [abs_of_nonneg] <;> norm_num
  have hscores : (calculateImportanceScores c5FailingChunks).map (fun c => c.importance_score)
      = [1/4, 13/36, 17/36, 7/12, 25/36, 25/36, 7/12, 17/36, 13/36] := by
    simp only [calculateImportanceScores, c5FailingChunks, scoreAux, importanceFor,
      List.length_cons, List.length_nil, List.map_cons, List.map_nil, hkw,
      hd1, hd2, if_neg, if_false, Bool.false_eq_true]
    norm_num [a1, a3, a5, a7, a9]
  refine ⟨hscores, ?_, ?_⟩ <;> rw [hscores] <;> norm_num

/-! Hybrid retriever stage 2 (backend.core.retrieval.HybridRetriever):
search gates the ColBERT rerank on the flag and on more than 5 candidates;
_colbert_rerank attaches 0.6 x rank + 0.4 x MaxSim to candidates carrying
token embeddings, the bare rank otherwise, then stable-sorts descending
and truncates. -/

structure Candidate where
  chunk_id : ℕ
  rank : ℚ
  colbert_tokens : Option (List (List ℚ)) := none
  colbert_score : Option ℚ := none
deriving DecidableEq

def dotProd (u v : List ℚ) : ℚ := (List.zipWith (fun a b => a * b) u v).sum

def listMax : List ℚ → ℚ
  | [] => 0
  | x :: xs => xs.foldl max x

/-- MaxSim: for each query token the maximum dot product against the
passage tokens, averaged over the query tokens. -/
def maxSimScore (qts dts : List (List ℚ)) : ℚ :=
  ((qts.map (fun qt => listMax (dts.map (fun dt => dotProd qt dt)))).sum) / qts.length

def colbertFinalScore (qts : List (List ℚ)) (r : Candidate) : ℚ :=
  match r.colbert_tokens with
  | some dts => (3/5) * r.rank + (2/5) * maxSimScore qts dts
  | none => r.rank

def attachColbertScore (qts : List (List ℚ)) (r : Candidate) : Candidate :=
  { r with colbert_score := some (colbertFinalScore qts r) }

def colbertRerank (qts : List (List ℚ)) (initial : List Candidate) (topK : ℕ) :
    List Candidate :=
  let scored := initial.map (attachColbertScore qts)
  (List.insertionSort (descBy (fun r => r.colbert_score.getD 0)) scored).take topK

def searchStage2 (useRerank : Bool) (qts : List (List ℚ)) (initial : List Candidate)
    (topK : ℕ) : List Candidate :=
  if useRerank = true ∧ 5 < initial.length then colbertRerank qts initial topK
  else initial.take topK

/-- Claim C2: the rerank runs exactly when enabled with more than 5
candidates (otherwise the stage is plain truncation); candidates with
token embeddings get final score 0.6 x fusion + 0.4 x MaxSim, candidates
without keep their fusion score; the output is a descending stable sort of
the scored candidates truncated to top_k. -/
theorem c2_rerank_gate_and_scores :
    (∀ (b : Bool) (qts : List (List ℚ)) (initial : List Candidate) (topK : ℕ),
      ¬ (b = true ∧ 5 < initial.length) →
        searchStage2 b qts initial topK = initial.take topK)
    ∧ (∀ (b : Bool) (qts : List (List ℚ)) (initial : List Candidate) (topK : ℕ),
      b = true → 5 < initial.length →
        searchStage2 b qts initial topK = colbertRerank qts initial topK)
    ∧ (∀ (qts : List (List ℚ)) (r : Candidate) (dts : List (List ℚ)),
      r.colbert_tokens = some dts →
        (attachColbertScore qts r).colbert_score
          = some ((6/10) * r.rank
              + (4/10) * ((qts.map (fun qt => listMax (dts.map (fun dt => dotProd qt dt)))).sum
                  / qts.length)))
    ∧ (∀ (qts : List (List ℚ)) (r : Candidate), r.colbert_tokens = none →
        (attachColbertScore qts r).colbert_score = some r.rank)
    ∧ (∀ (qts : List (List ℚ)) (initial : List Candidate) (topK : ℕ),
      ∃ l, List.Perm l (initial.map (attachColbertScore qts))
        ∧ List.Sorted (descBy (fun r => r.colbert_score.getD 0)) l
        ∧ colbertRerank qts initial topK = l.take topK) := by
  refine ⟨?_, ?_, ?_, ?_, ?_⟩
  · intro b qts initial topK h
    simp only [searchStage2, if_neg h]
  · intro b qts initial topK hb hlen
    simp only [searchStage2, if_pos (And.intro hb hlen)]
  · intro qts r dts h
    simp only [attachColbertScore, colbertFinalScore, h, maxSimScore]
    norm_num
  · intro qts r h
    simp only [attachColbertScore, colbertFinalScore, h]
  · intro qts initial topK
    refine ⟨List.insertionSort (descBy (fun r => r.colbert_score.getD 0))
      (initial.map (attachColbertScore qts)), ?_, ?_, rfl⟩
    · exact List.perm_insertionSort _ _
    · exact List.sorted_insertionSort _ _

def c2TokCandidate : Candidate :=
  { chunk_id := 1, rank := 1/2, colbert_tokens := some [[1, 0]] }

def c2PlainCandidate : Candidate := { chunk_id := 2, rank := 1 }

def c2SixCandidates : List Candidate :=
  [c2TokCandidate,
   c2PlainCandidate,
   { chunk_id := 3, rank := 0 },
   { chunk_id := 4, rank := 3/4 },
   { chunk_id := 5, rank := 1/4 },
   { chunk_id := 6, rank := 1/5 }]

/-- Concrete instantiation of claim C2 on six candidates: the disabled and
small-candidate-set gates skip the rerank, the enabled gate reaches it, and
the score formulas apply to a candidate with and without token
embeddings. -/
theorem c2_rerank_witness :
    searchStage2 false [[1]] c2SixCandidates 3 = c2SixCandidates.take 3
    ∧ searchStage2 true [[1]] (c2SixCandidates.take 3) 3 = (c2SixCandidates.take 3).take 3
    ∧ searchStage2 true [[1]] c2SixCandidates 2 = colbertRerank [[1]] c2SixCandidates 2
    ∧ (attachColbertScore [[1]] c2TokCandidate).colbert_score
        = some ((6/10) * c2TokCandidate.rank
            + (4/10) * ((([[(1:ℚ)]]).map
                (fun qt => listMax ([[(1:ℚ), 0]].map (fun dt => dotProd qt dt)))).sum
                  / ([[(1:ℚ)]]).length))
    ∧ (attachColbertScore [[1]] c2PlainCandidate).colbert_score
        = some c2PlainCandidate.rank := by
  refine ⟨?_, ?_, ?_, ?_, ?_⟩
  · exact c2_rerank_gate_and_scores.1 false [[1]] c2SixCandidates 3 (by simp)
  · exact c2_rerank_gate_and_scores.1 true [[1]] (c2SixCandidates.take 3) 3
      (by simp [c2SixCandidates])
  · exact c2_rerank_gate_and_scores.2.1 true [[1]] c2SixCandidates 2 rfl
      (by simp [c2SixCandidates])
  · exact c2_rerank_gate_and_scores.2.2.1 [[1]] c2TokCandidate [[1, 0]] rfl
  · exact c2_rerank_gate_and_scores.2.2.2.1 [[1]] c2PlainCandidate rfl

/-! Conversation memory (backend.core.conversation_memory) and the
answer-quality gate of the chat pipeline (backend.api.chat). -/

structure SearchAttempt where
  query : String
  strategy : String
  found_results : Bool
deriving DecidableEq

structure ConversationIntent where
  original_question : String
  entities_mentioned : List String := []
  search_attempts : List SearchAttempt := []
deriving DecidableEq

def keywordStopwords : List String :=
  ["der", "die", "das", "und", "oder", "aber", "mit", "von", "zu",
   "in", "auf", "an", "für", "bei", "ist", "sind", "war", "waren",
   "the", "a", "and", "or", "but", "with", "from", "to"]

def extractKeywords (text : String) : List String :=
  (pyWords (pyLower text)).filter
    (fun w => !(keywordStopwords.contains w) && decide (3 < pyLen w))

def overlapCount (ok rk : List String) : ℕ := (ok.toFinset ∩ rk.toFinset).card

def shouldRemindOriginalQuestion (intent : Option ConversationIntent)
    (response : String) : Bool :=
  match intent with
  | none => false
  | some it =>
    if 2 ≤ it.search_attempts.length then
      let ok := extractKeywords it.original_question
      let rk := extractKeywords response
      decide ((overlapCount ok rk : ℚ) < (ok.length : ℚ) * (3/10))
    else false

def formatReminder (intent : Option ConversationIntent) : String :=
  match intent with
  | none => ""
  | some it =>
    pyCat "\n\n---\nZur Erinnerung an deine ursprüngliche Frage: " it.original_question

/-- check_answer_quality: the parsed judge score, or the neutral-passing
default 0.8 when the judgment call raises. -/
def checkAnswerQuality (judgment : Option ℚ) : ℚ := judgment.getD (4/5)

def usesModelKnowledgeFallback (judgment : Option ℚ) : Bool :=
  decide (checkAnswerQuality judgment < 7/10)

/-- Steps 6-8 of intelligent_chat_pipeline: the reminder decision is taken
on the step-5 candidate answer, the base answer is the fallback generation
exactly when the quality score is below 0.7, and the reminder is appended
to whichever base was chosen. -/
def pipelineFinalResponse (initialResponse fallbackResponse : String)
    (judgment : Option ℚ) (intent : Option ConversationIntent) : String :=
  let shouldRemind := shouldRemindOriginalQuestion intent initialResponse
  let base := if usesModelKnowledgeFallback judgment then fallbackResponse
    else initialResponse
  if shouldRemind then pyCat base (formatReminder intent) else base

/-- Claim C3: the model-knowledge fallback path is taken iff the quality
score is strictly below 0.7 (0 and 0.69 trigger it, 0.70 and 1 do not),
and a failed judgment call yields the neutral-passing default 0.8, which
keeps the retrieval-grounded answer. -/
theorem c3_quality_gate :
    (∀ j : Option ℚ, usesModelKnowledgeFallback j = true ↔ checkAnswerQuality j < 7/10)
    ∧ checkAnswerQuality none = 4/5
    ∧ usesModelKnowledgeFallback none = false
    ∧ usesModelKnowledgeFallback (some 0) = true
    ∧ usesModelKnowledgeFallback (some (69/100)) = true
    ∧ usesModelKnowledgeFallback (some (7/10)) = false
    ∧ usesModelKnowledgeFallback (some 1) = false
    ∧ (∀ (i f : String) (j : Option ℚ) (intent : Option ConversationIntent),
        usesModelKnowledgeFallback j = true →
        shouldRemindOriginalQuestion intent i = false →
        pipelineFinalResponse i f j intent = f)
    ∧ (∀ (i f : String) (j : Option ℚ) (intent : Option ConversationIntent),
        usesModelKnowledgeFallback j = false →
        shouldRemindOriginalQuestion intent i = false →
        pipelineFinalResponse i f j intent = i) := by
  refine ⟨?_, rfl, ?_, ?_, ?_, ?_, ?_, ?_, ?_⟩
  · intro j
    simp [usesModelKnowledgeFallback]
  · norm_num [usesModelKnowledgeFallback, checkAnswerQuality,
      decide_eq_true_eq, decide_eq_false_iff_not]
  · norm_num [usesModelKnowledgeFallback, checkAnswerQuality,
      decide_eq_true_eq, decide_eq_false_iff_not]
  · norm_num [usesModelKnowledgeFallback, checkAnswerQuality,
      decide_eq_true_eq, decide_eq_false_iff_not]
  · norm_num [usesModelKnowledgeFallback, checkAnswerQuality,
      decide_eq_true_eq, decide_eq_false_iff_not]
  · norm_num [usesModelKnowledgeFallback, checkAnswerQuality,
      decide_eq_true_eq, decide_eq_false_iff_not]
  · intro i f j intent hq hr
    simp [pipelineFinalResponse, hq, hr]
  · intro i f j intent hq hr
    simp [pipelineFinalResponse, hq, hr]

/-- Concrete instantiation of claim C3: with a failed judgment call
(default score 0.8) the pipeline returns the retrieval-grounded answer,
and with judge score 0.69 it returns the fallback answer. -/
theorem c3_quality_gate_witness :
    pipelineFinalResponse "grounded" "fallback" none none = "grounded"
    ∧ pipelineFinalResponse "grounded" "fallback" (some (69/100)) none = "fallback" := by
  constructor
  · exact c3_quality_gate.2.2.2.2.2.2.2.2 "grounded" "fallback" none none
      c3_quality_gate.2.2.1 rfl
  · exact c3_quality_gate.2.2.2.2.2.2.2.1 "grounded" "fallback" (some (69/100)) none
      c3_quality_gate.2.2.2.2.1 rfl

/-- Claim C6: the reminder of the original question is appended to the
final answer iff the session's ConversationIntent has logged at least 2
search attempts and the generated answer's keyword overlap with the
original question's keywords is strictly below 30 percent of the
question's keyword count. -/
theorem c6_reminder_iff :
    (∀ (intent : Option ConversationIntent) (response : String),
      shouldRemindOriginalQuestion intent response = true
        ↔ ∃ it, intent = some it ∧ 2 ≤ it.search_attempts.length
            ∧ ((overlapCount (extractKeywords it.original_question)
                  (extractKeywords response) : ℚ)
                < ((extractKeywords it.original_question).length : ℚ) * (3/10)))
    ∧ (∀ (i f : String) (j : Option ℚ) (intent : Option ConversationIntent),
        shouldRemindOriginalQuestion intent i = true →
        pipelineFinalResponse i f j intent
          = pyCat (if usesModelKnowledgeFallback j then f else i) (formatReminder intent))
    ∧ (∀ (i f : String) (j : Option ℚ) (intent : Option ConversationIntent),
        shouldRemindOriginalQuestion intent i = false →
        pipelineFinalResponse i f j intent
          = (if usesModelKnowledgeFallback j then f else i)) := by
  refine ⟨?_, ?_, ?_⟩
  · intro intent response
    cases intent with
    | none =>
      simp only [shouldRemindOriginalQuestion]
      constructor
      · intro h
        exact absurd h (by simp)
      · rintro ⟨it, h, -⟩
        exact absurd h (by simp)
    | some it =>
      simp only [shouldRemindOriginalQuestion]
      by_cases hn : 2 ≤ it.search_attempts.length
      · simp only [if_pos hn, decide_eq_true_eq]
        constructor
        · intro h
          exact ⟨it, rfl, hn, h⟩
        · rintro ⟨it2, hsome, -, h⟩
          cases Option.some.inj hsome
          exact h
      · simp only [if_neg hn]
        constructor
        · intro h
          exact absurd h (by simp)
        · rintro ⟨it2, hsome, hlen, -⟩
          cases Option.some.inj hsome
          exact absurd hlen hn
  · intro i f j intent hr
    simp [pipelineFinalResponse, hr]
  · intro i f j intent hr
    simp [pipelineFinalResponse, hr]

def c6Attempt : SearchAttempt := { query := "q", strategy := "general", found_results := false }

def c6Intent : ConversationIntent :=
  { original_question := "wie funktioniert dieses system",
    search_attempts := [c6Attempt, c6Attempt] }

/-- Concrete instantiation of claim C6: two logged search attempts and a
zero-overlap answer trigger the reminder and the pipeline appends it; with
an empty attempt log the reminder is suppressed. -/
theorem c6_reminder_witness :
    shouldRemindOriginalQuestion (some c6Intent) "hello" = true
    ∧ pipelineFinalResponse "hello" "fb" none (some c6Intent)
        = pyCat (if usesModelKnowledgeFallback none then "fb" else "hello")
            (formatReminder (some c6Intent))
    ∧ shouldRemindOriginalQuestion
        (some { original_question := "wie funktioniert dieses system" }) "hello" = false := by
  have hov : overlapCount (extractKeywords "wie funktioniert dieses system")
      (extractKeywords "hello") = 0 := by decide
  have hlen : (extractKeywords "wie funktioniert dieses system").length = 3 := by decide
  have h1 : shouldRemindOriginalQuestion (some c6Intent) "hello" = true := by
    apply (c6_reminder_iff.1 (some c6Intent) "hello").mpr
    refine ⟨c6Intent, rfl, by decide, ?_⟩
    rw [show c6Intent.original_question = "wie funktioniert dieses system" from rfl,
      hov, hlen]
    norm_num
  refine ⟨h1, c6_reminder_iff.2.1 "hello" "fb" none (some c6Intent) h1, ?_⟩
  have h2 := c6_reminder_iff.1
    (some { original_question := "wie funktioniert dieses system" }) "hello"
  cases hb : shouldRemindOriginalQuestion
      (some { original_question := "wie funktioniert dieses system" }) "hello" with
  | false => rfl
  | true =>
    obtain ⟨it2, hsome, hlen2, -⟩ := h2.mp hb
    cases Option.some.inj hsome
    exact absurd hlen2 (by decide)

/-! Conversation memory intent extraction
(backend.core.conversation_memory.extract_intent).  The regex-based entity
extractor is abstracted as a function parameter; nothing below depends on
its output. -/

structure PyMessage where
  role : String
  content : String
deriving DecidableEq

def greetingWords : List String := ["hallo", "hi", "hey", "guten tag", "servus", "moin"]

def isGreeting (text : String) : Bool :=
  let tl := pyStrip (pyLower text)
  (greetingWords.any (fun g => pyStartsWith tl g)) && decide (pyLen tl < 20)

/-- A user turn that qualifies as the original question: user role, more
than 20 characters, not a greeting. -/
def substantive (m : PyMessage) : Bool :=
  m.role == "user" && decide (20 < pyLen m.content) && !(isGreeting m.content)

def extractIntent (ee : String → List String) (messages : List PyMessage) :
    Option ConversationIntent :=
  if messages = [] then none
  else
    let original := match messages.find? substantive with
      | some m => m.content
      | none => ((messages.getLast?).map (fun m => m.content)).getD ""
    some { original_question := original,
           entities_mentioned := ((messages.map (fun m => ee m.content)).join).dedup,
           search_attempts := [] }

/-- Claim C10: extract_intent returns None on an empty message list, and
when no user turn is substantive (each is at most 20 characters or a
greeting) it falls back to the content of the last message as the original
question. -/
theorem c10_extract_intent_fallback :
    (∀ ee : String → List String, extractIntent ee [] = none)
    ∧ (∀ (ee : String → List String) (msgs : List PyMessage) (h : msgs ≠ []),
        (∀ m ∈ msgs, m.role = "user" →
          pyLen m.content ≤ 20 ∨ isGreeting m.content = true) →
        extractIntent ee msgs
          = some { original_question := (msgs.getLast h).content,
                   entities_mentioned := ((msgs.map (fun m => ee m.content)).join).dedup,
                   search_attempts := [] }) := by
  constructor
  · intro ee
    rfl
  · intro ee msgs h hall
    have hfind : msgs.find? substantive = none := by
      rw [List.find?_eq_none]
      intro m hm
      have := hall m hm
      simp only [substantive, Bool.and_eq_true, beq_iff_eq, decide_eq_true_eq,
        Bool.not_eq_true']
      intro hcon
      obtain ⟨⟨hrole, hlen⟩, hgr⟩ := hcon
      rcases this hrole with h20 | hg
      · omega
      · rw [hg] at hgr
        cases hgr
    have hlast : msgs.getLast? = some (msgs.getLast h) := List.getLast?_eq_getLast msgs h
    simp only [extractIntent, if_neg h, hfind, hlast]
    rfl

/-- Concrete instantiation of claim C10: a short user turn followed by an
assistant turn yields the last message's content as the original
question. -/
theorem c10_extract_intent_witness :
    extractIntent (fun _ => []) [⟨"user", "hi"⟩, ⟨"assistant", "ok"⟩]
      = some { original_question := "ok", entities_mentioned := [],
               search_attempts := [] } := by
  have h := c10_extract_intent_fallback.2 (fun _ => [])
    [⟨"user", "hi"⟩, ⟨"assistant", "ok"⟩] (by decide) (by decide)
  simpa using h

/-! Stage-3 enrichment (backend.core.retrieval.HybridRetriever._enrich_results).

The chunks table is modelled as an explicit list of rows; the SQL query
SELECT ... WHERE document_id = $1 AND chunk_index IN ($2, $3) AND
chunk_type = 'detail' ORDER BY chunk_index is a filter followed by an
ascending sort; the code then takes surrounding[0] as 'previous' and
surrounding[1] as 'next'. -/

structure ChunkRow where
  row_id : ℕ
  document_id : ℕ
  content : String
  chunk_index : ℕ
  chunk_type : String
  speaker : Option String := none
deriving DecidableEq

def siblingRow (docId : Option ℕ) (idx : ℕ) (c : ChunkRow) : Bool :=
  (docId == some c.document_id)
    && ((c.chunk_index == idx - 1) || (c.chunk_index == idx + 1))
    && (c.chunk_type == "detail")

def surroundingRows (db : List ChunkRow) (docId : Option ℕ) (idx : ℕ) : List ChunkRow :=
  List.insertionSort (ascByNat (fun c => c.chunk_index)) (db.filter (siblingRow docId idx))

/-- The 'context' attachment of _enrich_results for one result row: none
models the Python truthiness guard if result.get('chunk_index') (a missing
or zero index attaches nothing); otherwise the pair is
(surrounding[0] if present, surrounding[1] if present). -/
def enrichContext (db : List ChunkRow) (docId : Option ℕ) (chunkIdx : Option ℕ) :
    Option (Option ChunkRow × Option ChunkRow) :=
  match chunkIdx with
  | none => none
  | some i =>
    if i = 0 then none
    else
      let s := surroundingRows db docId i
      some (s[0]?, s[1]?)

def enrichResults (db : List ChunkRow) (results : List (Option ℕ × Option ℕ)) :
    List ((Option ℕ × Option ℕ) × Option (Option ChunkRow × Option ChunkRow)) :=
  results.map (fun r => (r, enrichContext db r.1 r.2))

/-- A single-sibling predicate: the row of document docId at ordinal j with
detail tier. -/
def atSibling (docId : Option ℕ) (j : ℕ) (c : ChunkRow) : Bool :=
  (docId == some c.document_id) && (c.chunk_index == j) && (c.chunk_type == "detail")

lemma siblingRow_eq_or (docId : Option ℕ) (i : ℕ) (c : ChunkRow) :
    siblingRow docId i c = (atSibling docId (i - 1) c || atSibling docId (i + 1) c) := by
  unfold siblingRow atSibling
  cases docId == some c.document_id <;> cases c.chunk_type == "detail" <;>
    cases c.chunk_index == i - 1 <;> cases c.chunk_index == i + 1 <;> rfl

lemma atSibling_idx {docId : Option ℕ} {j : ℕ} {c : ChunkRow}
    (h : atSibling docId j c = true) : c.chunk_index = j := by
  unfold atSibling at h
  simp only [Bool.and_eq_true, beq_iff_eq] at h
  exact h.1.2

lemma filter_or_perm {α : Type} (A B : α → Bool)
    (hdisj : ∀ c, ¬(A c = true ∧ B c = true)) (l : List α) :
    (l.filter (fun c => A c || B c)).Perm (l.filter A ++ l.filter B) := by
  induction l with
  | nil => simp
  | cons c rest ih =>
    by_cases hA : A c = true
    · have hB : B c = false := by
        cases hBc : B c
        · rfl
        · exact absurd ⟨hA, hBc⟩ (hdisj c)
      simpa [List.filter_cons, hA, hB] using ih.cons c
    · have hA' : A c = false := by
        cases hAc : A c
        · rfl
        · exact absurd hAc hA
      by_cases hB : B c = true
      · simp only [List.filter_cons, hA', hB, Bool.false_or, if_pos, if_true]
        exact (ih.cons c).trans List.perm_middle.symm
      · have hB' : B c = false := by
          cases hBc : B c
          · rfl
          · exact absurd hBc hB
        simpa [List.filter_cons, hA', hB'] using ih

lemma perm_pair_cases {α : Type} {l : List α} {p n : α} (h : l.Perm [p, n]) :
    l = [p, n] ∨ l = [n, p] := by
  have hlen : l.length = 2 := by simpa using h.length_eq
  cases l with
  | nil => simp at hlen
  | cons a t =>
    cases t with
    | nil => simp at hlen
    | cons b t2 =>
      cases t2 with
      | cons c t3 => simp at hlen
      | nil =>
        have ha : a ∈ [p, n] := h.mem_iff.mp (by simp)
        simp only [List.mem_cons, List.mem_singleton, List.not_mem_nil, or_false] at ha
        rcases ha with hap | han
        · subst hap
          have hb : [b].Perm [n] := h.cons_inv
          have : b = n := by simpa [List.perm_singleton] using hb
          subst this
          exact Or.inl rfl
        · subst han
          have h2 : (a :: b :: ([] : List α)).Perm (a :: p :: []) :=
            h.trans (List.Perm.swap a p [])
          have hb : [b].Perm [p] := h2.cons_inv
          have : b = p := by simpa [List.perm_singleton] using hb
          subst this
          exact Or.inr rfl

lemma sorted_perm_pair {l : List ChunkRow} {p n : ChunkRow}
    (hperm : l.Perm [p, n])
    (hs : List.Sorted (ascByNat (fun c => c.chunk_index)) l)
    (hlt : p.chunk_index < n.chunk_index) : l = [p, n] := by
  rcases perm_pair_cases hperm with h | h
  · exact h
  · subst h
    have : ascByNat (fun c : ChunkRow => c.chunk_index) n p := by
      have := List.sorted_cons.mp hs
      exact this.1 p (by simp)
    exact absurd this (by simpa [ascByNat] using hlt)

lemma surrounding_chars (db : List ChunkRow) (d i : ℕ) :
    (surroundingRows db (some d) i).Perm
        (db.filter (atSibling (some d) (i - 1)) ++ db.filter (atSibling (some d) (i + 1)))
    ∧ List.Sorted (ascByNat (fun c => c.chunk_index)) (surroundingRows db (some d) i) := by
  have hdisj : ∀ c, ¬(atSibling (some d) (i - 1) c = true
      ∧ atSibling (some d) (i + 1) c = true) := by
    intro c ⟨h1, h2⟩
    have e1 := atSibling_idx h1
    have e2 := atSibling_idx h2
    omega
  have hfe : db.filter (siblingRow (some d) i)
      = db.filter (fun c => atSibling (some d) (i - 1) c || atSibling (some d) (i + 1) c) := by
    apply List.filter_congr
    intro c _
    exact siblingRow_eq_or (some d) i c
  constructor
  · refine (List.perm_insertionSort _ _).trans ?_
    rw [hfe]
    exact filter_or_perm _ _ hdisj db
  · exact List.sorted_insertionSort _ _

def c7LoneNextRow : ChunkRow :=
  { row_id := 30, document_id := 1, content := "after", chunk_index := 3,
    chunk_type := "detail" }

/-- Claim C7 (counterexample): a result at ordinal index 2 whose only
same-document detail sibling sits at index 3 (the immediately following
one) gets that chunk attached as 'previous' and nothing as 'next' —
surrounding[0] is always taken as 'previous' regardless of which side it
came from. -/
theorem c7_enrich_counterexample :
    enrichContext [c7LoneNextRow] (some 1) (some 2)
      = some (some c7LoneNextRow, none)
    ∧ c7LoneNextRow.chunk_index = 2 + 1 := by
  exact ⟨by decide, rfl⟩

/-- Claim C7 (amended): for a result with a present nonzero ordinal index,
the same-document detail rows at index-1 and index+1 are collected in
ascending index order and then attached positionally: with both siblings
present 'previous' and 'next' are correct; with exactly one sibling
present it is attached as 'previous' whichever side it lies on, and 'next'
is only filled when both exist; with no sibling both sides are empty; a
missing or zero index attaches no context at all. -/
theorem c7_enrich_amended (db : List ChunkRow) (d i : ℕ) (hi : i ≠ 0) :
    (db.filter (atSibling (some d) (i - 1)) = [] →
      db.filter (atSibling (some d) (i + 1)) = [] →
      enrichContext db (some d) (some i) = some (none, none))
    ∧ (∀ p, db.filter (atSibling (some d) (i - 1)) = [p] →
        db.filter (atSibling (some d) (i + 1)) = [] →
        enrichContext db (some d) (some i) = some (some p, none))
    ∧ (∀ n, db.filter (atSibling (some d) (i - 1)) = [] →
        db.filter (atSibling (some d) (i + 1)) = [n] →
        enrichContext db (some d) (some i) = some (some n, none))
    ∧ (∀ p n, db.filter (atSibling (some d) (i - 1)) = [p] →
        db.filter (atSibling (some d) (i + 1)) = [n] →
        enrichContext db (some d) (some i) = some (some p, some n))
    ∧ enrichContext db (some d) none = none
    ∧ enrichContext db (some d) (some 0) = none
    ∧ (∀ results r, r ∈ results →
        (r, enrichContext db r.1 r.2) ∈ enrichResults db results) := by
  obtain ⟨hperm, hsort⟩ := surrounding_chars db d i
  refine ⟨?_, ?_, ?_, ?_, rfl, by simp [enrichContext], ?_⟩
  · intro hP hN
    have hnil : surroundingRows db (some d) i = [] := by
      have := hperm
      rw [hP, hN] at this
      simpa using this.eq_nil
    simp [enrichContext, hi, hnil]
  · intro p hP hN
    have hone : surroundingRows db (some d) i = [p] := by
      have := hperm
      rw [hP, hN] at this
      simpa [List.perm_singleton] using this
    simp [enrichContext, hi, hone]
  · intro n hP hN
    have hone : surroundingRows db (some d) i = [n] := by
      have := hperm
      rw [hP, hN] at this
      simpa [List.perm_singleton] using this
    simp [enrichContext, hi, hone]
  · intro p n hP hN
    have hpi : p.chunk_index = i - 1 := by
      have hp : p ∈ db.filter (atSibling (some d) (i - 1)) := by
        rw [hP]
        simp
      exact atSibling_idx (List.of_mem_filter hp)
    have hni : n.chunk_index = i + 1 := by
      have hn : n ∈ db.filter (atSibling (some d) (i + 1)) := by
        rw [hN]
        simp
      exact atSibling_idx (List.of_mem_filter hn)
    have hpair : surroundingRows db (some d) i = [p, n] := by
      apply sorted_perm_pair ?_ hsort ?_
      · rw [hP, hN] at hperm
        simpa using hperm
      · omega
    simp [enrichContext, hi, hpair]
  · intro results r hr
    simp only [enrichResults, List.mem_map]
    exact ⟨r, hr, rfl⟩

def c7PrevRow : ChunkRow :=
  { row_id := 10, document_id := 1, content := "before", chunk_index := 1,
    chunk_type := "detail" }

def c7NextRow : ChunkRow :=
  { row_id := 11, document_id := 1, content := "after", chunk_index := 3,
    chunk_type := "detail" }

/-- Concrete instantiation of the amended claim C7: with both siblings
stored (in scrambled database order) the result at index 2 gets the
index-1 row as 'previous' and the index-3 row as 'next'. -/
theorem c7_enrich_witness :
    enrichContext [c7NextRow, c7PrevRow] (some 1) (some 2)
      = some (some c7PrevRow, some c7NextRow) :=
  (c7_enrich_amended [c7NextRow, c7PrevRow] 1 2 (by decide)).2.2.2.1 c7PrevRow c7NextRow
    (by decide) (by decide)

/-! Query routing for document references
(backend.core.smart_routing.SmartQueryRouter._document_reference_search and
_needs_full_context).  The documents table is an explicit list; the SQL
query ORDER BY created_at DESC LIMIT 5 is a filter, a descending sort and
a take 5.  The regex branch of _needs_full_context is abstracted as a
Boolean function parameter; the routing result is proved independent of
it. -/

structure DocumentRow where
  doc_id : ℕ
  title : String
  source_type : String
  created_at : ℕ
  full_content : String
deriving DecidableEq

def docMatchesQuery (author topic : Option String) (isVideo : Bool) (d : DocumentRow) : Bool :=
  (match author with
    | some a => strContains (pyLower d.title) (pyLower a)
    | none => false)
  || (match topic with
    | some t => strContains (pyLower d.title) (pyLower t)
    | none => false)
  || (isVideo && ((d.source_type == "youtube") || strContains (pyLower d.title) "video"))

def fetchMatchingDocs (db : List DocumentRow) (author topic : Option String)
    (isVideo : Bool) : List DocumentRow :=
  (List.insertionSort (descByNat (fun d => d.created_at))
    (db.filter (docMatchesQuery author topic isVideo))).take 5

def fullContextIndicators : List String :=
  ["gesamt", "vollständig", "komplett", "alles", "detail", "genau", "exakt", "wörtlich",
   "komplette transkript", "ganze gespräch", "was wurde alles", "alle themen",
   "zusammenfassung des gesamten"]

def fullContextRegexWords : List String := ["alles", "gesamt", "komplett", "detail"]

/-- Model of _needs_full_context: its first loop scans the indicator list for a
substring hit; the second branch additionally requires a regex match
(abstracted as regexHit) together with one of four keywords, each of which
is itself an indicator, so the branch is redundant. -/
def needsFullContext (regexHit : String → Bool) (query : String) : Bool :=
  let ql := pyLower query
  if fullContextIndicators.any (fun ind => strContains ql ind) then true
  else if regexHit ql && fullContextRegexWords.any (fun w => strContains ql w) then true
  else false

lemma needsFullContext_eq_indicators (f : String → Bool) (q : String) :
    needsFullContext f q
      = fullContextIndicators.any (fun ind => strContains (pyLower q) ind) := by
  unfold needsFullContext
  by_cases h : fullContextIndicators.any (fun ind => strContains (pyLower q) ind) = true
  · simp [h]
  · have hw : fullContextRegexWords.any (fun w => strContains (pyLower q) w) = false := by
      cases hac : fullContextRegexWords.any (fun w => strContains (pyLower q) w)
      · rfl
      · exfalso
        apply h
        rw [List.any_eq_true] at hac ⊢
        obtain ⟨w, hw1, hw2⟩ := hac
        refine ⟨w, ?_, hw2⟩
        fin_cases hw1 <;> decide
    simp [h, hw]

def fullDocChunk (top : DocumentRow) : ChunkRow :=
  { row_id := 0, document_id := top.doc_id, content := top.full_content,
    chunk_index := 0, chunk_type := "full_document" }

structure RouteResult where
  strategy : String
  documents : List DocumentRow
  chunks : List ChunkRow
  used_full_content : Bool
deriving DecidableEq

def emptyRouteResult : RouteResult :=
  { strategy := "document_ref", documents := [], chunks := [],
    used_full_content := false }

def documentReferenceSearch (regexHit : String → Bool) (docDb : List DocumentRow)
    (chunkDb : List ChunkRow) (query : String) (author topic : Option String)
    (isVideo : Bool) : RouteResult :=
  if author.isNone && topic.isNone && !isVideo then emptyRouteResult
  else
    match fetchMatchingDocs docDb author topic isVideo with
    | [] => emptyRouteResult
    | top :: rest =>
      if needsFullContext regexHit query && !(top.full_content == "") then
        { strategy := "document_ref", documents := top :: rest,
          chunks := [fullDocChunk top], used_full_content := true }
      else
        { strategy := "document_ref", documents := top :: rest,
          chunks := List.insertionSort (ascByNat (fun c => c.chunk_index))
            (chunkDb.filter (fun c => c.document_id == top.doc_id)),
          used_full_content := false }

def c8DocOne : DocumentRow :=
  { doc_id := 1, title := "roboter video eins", source_type := "youtube",
    created_at := 10, full_content := "VOLLTEXT EINS" }

def c8DocTwo : DocumentRow :=
  { doc_id := 2, title := "roboter video zwei", source_type := "youtube",
    created_at := 5, full_content := "VOLLTEXT ZWEI" }

def c8StoredChunk : ChunkRow :=
  { row_id := 5, document_id := 1, content := "stored passage", chunk_index := 1,
    chunk_type := "detail" }

/-- Claim C8 (counterexample): on a query signalling exhaustive detail
("komplett bitte") with TWO matching candidate documents, the router still
returns the top document's entire raw text as the single synthetic chunk
instead of its stored passages — the 'exactly one strong candidate'
condition of the claim is never checked by the code. -/
theorem c8_document_ref_counterexample :
    (documentReferenceSearch (fun _ => false) [c8DocTwo, c8DocOne] [c8StoredChunk]
        "komplett bitte" none (some "roboter") false).documents.length = 2
    ∧ (documentReferenceSearch (fun _ => false) [c8DocTwo, c8DocOne] [c8StoredChunk]
        "komplett bitte" none (some "roboter") false).used_full_content = true
    ∧ (documentReferenceSearch (fun _ => false) [c8DocTwo, c8DocOne] [c8StoredChunk]
        "komplett bitte" none (some "roboter") false).chunks = [fullDocChunk c8DocOne]
    ∧ [fullDocChunk c8DocOne] ≠ [c8StoredChunk] := by
  refine ⟨by decide, by decide, by decide, by decide⟩

/-- Claim C8 (amended): whenever at least one Document matches the
document_ref slots, the router checks only two things — that the query
signals exhaustive detail (a substring hit in the indicator list, the
regex branch being redundant) and that the top-ranked (most recently
created) matched Document has nonempty raw text.  If both hold it returns
that full text as a single synthetic chunk regardless of how many
candidates matched; otherwise it returns every stored chunk of the top
Document in ascending ordinal order. -/
theorem c8_document_ref_amended (f : String → Bool) (docDb : List DocumentRow)
    (chunkDb : List ChunkRow) (q : String) (author topic : Option String)
    (isVideo : Bool) (top : DocumentRow) (rest : List DocumentRow)
    (hnc : (author.isNone && topic.isNone && !isVideo) = false)
    (hdocs : fetchMatchingDocs docDb author topic isVideo = top :: rest) :
    (needsFullContext f q = true → top.full_content ≠ "" →
      documentReferenceSearch f docDb chunkDb q author topic isVideo
        = { strategy := "document_ref", documents := top :: rest,
            chunks := [fullDocChunk top], used_full_content := true })
    ∧ (needsFullContext f q = false ∨ top.full_content = "" →
      ∃ cs, documentReferenceSearch f docDb chunkDb q author topic isVideo
          = { strategy := "document_ref", documents := top :: rest, chunks := cs,
              used_full_content := false }
        ∧ cs.Perm (chunkDb.filter (fun c => c.document_id == top.doc_id))
        ∧ List.Sorted (ascByNat (fun c => c.chunk_index)) cs)
    ∧ needsFullContext f q
        = fullContextIndicators.any (fun ind => strContains (pyLower q) ind) := by
  refine ⟨?_, ?_, needsFullContext_eq_indicators f q⟩
  · intro hful hcontent
    have hc : (needsFullContext f q && !(top.full_content == "")) = true := by
      simp [hful, hcontent]
    simp [documentReferenceSearch, hnc, hdocs, hc]
  · intro hcase
    have hc : (needsFullContext f q && !(top.full_content == "")) = false := by
      rcases hcase with h | h <;> simp [h]
    refine ⟨List.insertionSort (ascByNat (fun c => c.chunk_index))
      (chunkDb.filter (fun c => c.document_id == top.doc_id)), ?_, ?_, ?_⟩
    · simp [documentReferenceSearch, hnc, hdocs, hc]
    · exact List.perm_insertionSort _ _
    · exact List.sorted_insertionSort _ _

/-- Concrete instantiation of the amended claim C8: a single matching
document plus the exhaustive-detail keyword returns its full text as one
synthetic chunk. -/
theorem c8_document_ref_witness :
    documentReferenceSearch (fun _ => false) [c8DocOne] [c8StoredChunk]
        "komplett bitte" none (some "roboter") false
      = { strategy := "document_ref", documents := [c8DocOne],
          chunks := [fullDocChunk c8DocOne], used_full_content := true } :=
  (c8_document_ref_amended (fun _ => false) [c8DocOne] [c8StoredChunk] "komplett bitte"
    none (some "roboter") false c8DocOne [] (by decide) (by decide)).1
    (by decide) (by decide)

/-! Fuzzy similarity (backend.core.fuzzy_search.FuzzySearchEngine
._calculate_similarity) and its difflib.SequenceMatcher fallback.

The SequenceMatcher is embedded faithfully: find_longest_match runs the
j2len dynamic program over b-positions of each a-character (junk positions
excluded), keeps the strictly-longest block (ties resolved earliest in a,
then earliest in b) and extends it across non-junk then junk boundaries;
get_matching_blocks recurses on both sides of the block; ratio is
2 * matches / (len(a) + len(b)); the autojunk heuristic marks characters
occupying more than 1 percent of b when b has at least 200 elements. -/

def flmInnerStep (j2lenOld : ℕ → ℕ) (i : ℕ) (st : (ℕ → ℕ) × ℕ × ℕ × ℕ) (j : ℕ) :
    (ℕ → ℕ) × ℕ × ℕ × ℕ :=
  let k := (if j = 0 then 0 else j2lenOld (j - 1)) + 1
  let newj2len := fun j' => if j' = j then k else st.1 j'
  if st.2.2.2 < k then (newj2len, i + 1 - k, j + 1 - k, k)
  else (newj2len, st.2)

def flmRow (a b : List Char) (junkp : Char → Bool) (blo bhi : ℕ)
    (acc : (ℕ → ℕ) × ℕ × ℕ × ℕ) (i : ℕ) : (ℕ → ℕ) × ℕ × ℕ × ℕ :=
  let js := match a.get? i with
    | none => []
    | some c =>
      if junkp c then []
      else (List.range bhi).filter (fun j => decide (blo ≤ j) && (b.get? j == some c))
  js.foldl (flmInnerStep acc.1 i) ((fun _ => 0), acc.2)

def flmCore (a b : List Char) (junkp : Char → Bool) (alo ahi blo bhi : ℕ) :
    ℕ × ℕ × ℕ :=
  ((List.range' alo (ahi - alo)).foldl (flmRow a b junkp blo bhi)
    ((fun _ => 0), alo, blo, 0)).2

def extendBack (a b : List Char) (junkp : Char → Bool) (wantJunk : Bool)
    (alo blo : ℕ) : ℕ → ℕ × ℕ × ℕ → ℕ × ℕ × ℕ
  | 0, st => st
  | fuel + 1, (besti, bestj, bestsize) =>
    if decide (alo < besti) && decide (blo < bestj)
        && (match b.get? (bestj - 1) with
            | some c => junkp c == wantJunk && (a.get? (besti - 1) == some c)
            | none => false) then
      extendBack a b junkp wantJunk alo blo fuel (besti - 1, bestj - 1, bestsize + 1)
    else (besti, bestj, bestsize)

def extendFwd (a b : List Char) (junkp : Char → Bool) (wantJunk : Bool)
    (ahi bhi : ℕ) : ℕ → ℕ × ℕ × ℕ → ℕ × ℕ × ℕ
  | 0, st => st
  | fuel + 1, (besti, bestj, bestsize) =>
    if decide (besti + bestsize < ahi) && decide (bestj + bestsize < bhi)
        && (match b.get? (bestj + bestsize) with
            | some c => junkp c == wantJunk && (a.get? (besti + bestsize) == some c)
            | none => false) then
      extendFwd a b junkp wantJunk ahi bhi fuel (besti, bestj, bestsize + 1)
    else (besti, bestj, bestsize)

def findLongestMatch (a b : List Char) (junkp : Char → Bool) (alo ahi blo bhi : ℕ) :
    ℕ × ℕ × ℕ :=
  let st0 := flmCore a b junkp alo ahi blo bhi
  let st1 := extendBack a b junkp false alo blo st0.1 st0
  let st2 := extendFwd a b junkp false ahi bhi ahi st1
  let st3 := extendBack a b junkp true alo blo st2.1 st2
  extendFwd a b junkp true ahi bhi ahi st3

def matchTotalAux (a b : List Char) (junkp : Char → Bool) :
    ℕ → ℕ → ℕ → ℕ → ℕ → ℕ
  | 0, _, _, _, _ => 0
  | fuel + 1, alo, ahi, blo, bhi =>
    let m := findLongestMatch a b junkp alo ahi blo bhi
    let i := m.1
    let j := m.2.1
    let k := m.2.2
    if k = 0 then 0
    else k
      + (if alo < i ∧ blo < j then matchTotalAux a b junkp fuel alo i blo j else 0)
      + (if i + k < ahi ∧ j + k < bhi then
          matchTotalAux a b junkp fuel (i + k) ahi (j + k) bhi else 0)

def autojunkp (b : List Char) : Char → Bool :=
  if b.length < 200 then (fun _ => false)
  else (fun c => decide (b.length / 100 + 1 < b.count c))

def totalMatched (a b : List Char) : ℕ :=
  matchTotalAux a b (autojunkp b) (a.length + 1) 0 a.length 0 b.length

def editSimilarity (a b : List Char) : ℚ :=
  if a.length + b.length = 0 then 1
  else 2 * (totalMatched a b : ℚ) / ((a.length : ℚ) + (b.length : ℚ))

def jaccardSim (a b : String) : ℚ :=
  let t1 := (pyWords (pyLower a)).toFinset
  let t2 := (pyWords (pyLower b)).toFinset
  if 0 < (t1 ∪ t2).card then ((t1 ∩ t2).card : ℚ) / ((t1 ∪ t2).card : ℚ) else 0

def calcSimilarity (str1 str2 : String) : ℚ :=
  let s1 := pyLower str1
  let s2 := pyLower str2
  if s1 = s2 then 1
  else if strContains s2 s1 || strContains s1 s2 then 4/5
  else
    let t1 := (pyWords s1).toFinset
    let t2 := (pyWords s2).toFinset
    if t1.Nonempty ∧ t2.Nonempty then
      if 1/2 < jaccardSim str1 str2 then jaccardSim str1 str2
      else editSimilarity s1.data s2.data
    else editSimilarity s1.data s2.data

/-- Claim C9 (counterexample): similarity is not symmetric.  The pair
"ab" / "bacb" passes the exact, substring and token-overlap tiers in both
orders and lands in the SequenceMatcher fallback, which matches 2
characters one way (ratio 2/3) but only 1 character the other way (ratio
1/3): the matching-block search prefers blocks earliest in its first
argument, so the argument order changes the greedy decomposition. -/
theorem c9_similarity_counterexample :
    calcSimilarity "ab" "bacb" = 2/3
    ∧ calcSimilarity "bacb" "ab" = 1/3
    ∧ calcSimilarity "ab" "bacb" ≠ calcSimilarity "bacb" "ab" := by
  have hlow1 : pyLower "ab" = "ab" := by decide
  have hlow2 : pyLower "bacb" = "bacb" := by decide
  have hjac12 : jaccardSim "ab" "bacb" = 0 := by
    have hc0 : (((pyWords (pyLower "ab")).toFinset
        ∩ (pyWords (pyLower "bacb")).toFinset).card) = 0 := by decide
    have hcU : (((pyWords (pyLower "ab")).toFinset
        ∪ (pyWords (pyLower "bacb")).toFinset).card) = 2 := by decide
    simp [jaccardSim, hc0, hcU]
  have hjac21 : jaccardSim "bacb" "ab" = 0 := by
    have hc0 : (((pyWords (pyLower "bacb")).toFinset
        ∩ (pyWords (pyLower "ab")).toFinset).card) = 0 := by decide
    have hcU : (((pyWords (pyLower "bacb")).toFinset
        ∪ (pyWords (pyLower "ab")).toFinset).card) = 2 := by decide
    simp [jaccardSim, hc0, hcU]
  have hm12 : totalMatched "ab".data "bacb".data = 2 := by decide
  have hm21 : totalMatched "bacb".data "ab".data = 1 := by decide
  have e1 : calcSimilarity "ab" "bacb" = 2/3 := by
    simp only [calcSimilarity, hlow1, hlow2]
    rw [if_neg (by decide : ¬ (("ab" : String) = "bacb"))]
    rw [if_neg (by decide :
      ¬ ((strContains "bacb" "ab" || strContains "ab" "bacb") = true))]
    rw [if_pos (by decide : (pyWords ("ab" : String)).toFinset.Nonempty
      ∧ (pyWords ("bacb" : String)).toFinset.Nonempty)]
    rw [if_neg (by rw [hjac12]; norm_num)]
    simp only [editSimilarity]
    rw [if_neg (by decide : ¬ (("ab" : String).data.length
      + ("bacb" : String).data.length = 0))]
    rw [hm12, show ("ab" : String).data.length = 2 from by decide,
      show ("bacb" : String).data.length = 4 from by decide]
    norm_num
  have e2 : calcSimilarity "bacb" "ab" = 1/3 := by
    simp only [calcSimilarity, hlow1, hlow2]
    rw [if_neg (by decide : ¬ (("bacb" : String) = "ab"))]
    rw [if_neg (by decide :
      ¬ ((strContains "ab" "bacb" || strContains "bacb" "ab") = true))]
    rw [if_pos (by decide : (pyWords ("bacb" : String)).toFinset.Nonempty
      ∧ (pyWords ("ab" : String)).toFinset.Nonempty)]
    rw [if_neg (by rw [hjac21]; norm_num)]
    simp only [editSimilarity]
    rw [if_neg (by decide : ¬ (("bacb" : String).data.length
      + ("ab" : String).data.length = 0))]
    rw [hm21, show ("ab" : String).data.length = 2 from by decide,
      show ("bacb" : String).data.length = 4 from by decide]
    norm_num
  refine ⟨e1, e2, ?_⟩
  rw [e1, e2]
  norm_num

lemma jaccardSim_comm (a b : String) : jaccardSim a b = jaccardSim b a := by
  simp only [jaccardSim]
  rw [Finset.inter_comm, Finset.union_comm]

/-- Claim C9 (amended): self-similarity is always 1, and the three
deterministic tiers are symmetric — equal lowered strings give 1 both
ways, substring containment gives 0.8 both ways, and a token-overlap above
1/2 gives the (symmetric) Jaccard value both ways; the SequenceMatcher
fallback tier is reached for (a,b) exactly when it is reached for (b,a),
but its value is order-dependent, so overall symmetry fails only there. -/
theorem c9_similarity_amended :
    (∀ a : String, calcSimilarity a a = 1)
    ∧ (∀ a b : String, pyLower a = pyLower b →
        calcSimilarity a b = 1 ∧ calcSimilarity b a = 1)
    ∧ (∀ a b : String, ¬ pyLower a = pyLower b →
        (strContains (pyLower b) (pyLower a) || strContains (pyLower a) (pyLower b)) = true →
        calcSimilarity a b = 4/5 ∧ calcSimilarity b a = 4/5)
    ∧ (∀ a b : String, ¬ pyLower a = pyLower b →
        (strContains (pyLower b) (pyLower a) || strContains (pyLower a) (pyLower b)) = false →
        (pyWords (pyLower a)).toFinset.Nonempty →
        (pyWords (pyLower b)).toFinset.Nonempty →
        1/2 < jaccardSim a b →
        calcSimilarity a b = jaccardSim a b ∧ calcSimilarity b a = jaccardSim a b)
    ∧ (∀ a b : String, jaccardSim a b = jaccardSim b a) := by
  refine ⟨?_, ?_, ?_, ?_, jaccardSim_comm⟩
  · intro a
    simp [calcSimilarity]
  · intro a b h
    constructor
    · simp only [calcSimilarity]
      rw [if_pos h]
    · simp only [calcSimilarity]
      rw [if_pos h.symm]
  · intro a b hne hsub
    constructor
    · simp only [calcSimilarity]
      rw [if_neg hne, if_pos hsub]
    · simp only [calcSimilarity]
      rw [if_neg (fun hh => hne hh.symm), if_pos (by rw [Bool.or_comm] at hsub; exact hsub)]
  · intro a b hne hsub hn1 hn2 hjac
    constructor
    · simp only [calcSimilarity]
      rw [if_neg hne, if_neg (by rw [hsub]; exact fun hh => Bool.false_ne_true hh),
        if_pos ⟨hn1, hn2⟩, if_pos hjac]
    · simp only [calcSimilarity]
      rw [if_neg (fun hh => hne hh.symm),
        if_neg (by rw [Bool.or_comm] at hsub; rw [hsub]; exact fun hh => Bool.false_ne_true hh),
        if_pos ⟨hn2, hn1⟩, if_pos (by rw [jaccardSim_comm b a]; exact hjac),
        jaccardSim_comm b a]

/-- Concrete instantiation of the amended claim C9 on each tier: equal
strings up to case give 1 both ways, a substring pair gives 0.8 both ways,
and a token-permutation pair gives its Jaccard value both ways. -/
theorem c9_similarity_witness :
    (calcSimilarity "Pflege" "pflege" = 1 ∧ calcSimilarity "pflege" "Pflege" = 1)
    ∧ (calcSimilarity "Hooks" "claude hooks" = 4/5
        ∧ calcSimilarity "claude hooks" "Hooks" = 4/5)
    ∧ (calcSimilarity "video tutorial" "tutorial video"
          = jaccardSim "video tutorial" "tutorial video"
        ∧ calcSimilarity "tutorial video" "video tutorial"
          = jaccardSim "video tutorial" "tutorial video") := by
  refine ⟨?_, ?_, ?_⟩
  · exact c9_similarity_amended.2.1 "Pflege" "pflege" (by decide)
  · exact c9_similarity_amended.2.2.1 "Hooks" "claude hooks" (by decide) (by decide)
  · apply c9_similarity_amended.2.2.2.1 "video tutorial" "tutorial video"
      (by decide) (by decide) (by decide) (by decide)
    have hc2 : (((pyWords (pyLower "video tutorial")).toFinset
        ∩ (pyWords (pyLower "tutorial video")).toFinset).card) = 2 := by decide
    have hcU : (((pyWords (pyLower "video tutorial")).toFinset
        ∪ (pyWords (pyLower "tutorial video")).toFinset).card) = 2 := by decide
    simp only [jaccardSim, hc2, hcU]
    norm_num

end MyBrain
